import Mathlib

/-!
Verification of the graphviz-overlay repository.

Shallow embedding of `src/graph.py` (the model walker / graph context) and
`src/overlays/graphviz.py` (the path-selection overlay pass).

Python dictionaries are embedded as insertion-ordered association lists
(`List (String × _)`); `dictLookup` is dict access, `pyInsert` is
`d[k] = v` (replace in place, else append), `dictUpdate` is `d.update(e)`.
Python's in-place mutation of sub-objects (dicts reached through aliases)
is made explicit by state passing: functions that mutate their argument
return, next to their result, the state of that argument after the call.
Recursive tree walks take a fuel parameter so that every definition is
structurally recursive and executable; fuel 0 yields `none`, and any fuel
at least the nesting depth of the (finite) input tree gives the run of the
Python code.
-/

namespace Gv

/-- Attribute values occurring in the JSON model: strings, lists of
strings (the `classes` / `paths` tags) and booleans (`visible`,
`cluster`). -/
inductive AVal where
  | s : String → AVal
  | ls : List String → AVal
  | b : Bool → AVal
deriving DecidableEq, Repr

/-- A Python dict with string keys, as an insertion-ordered association
list. -/
abbrev Dict := List (String × AVal)

/-- Dict lookup: `d.get(k)` / `d[k]`. -/
def dictLookup {α : Type} : List (String × α) → String → Option α
  | [], _ => none
  | (k, v) :: rest, key => if k = key then some v else dictLookup rest key

/-- Python `d[k] = v`: replace the value in place if the key is present,
otherwise append the pair. -/
def pyInsert {α : Type} : List (String × α) → String → α → List (String × α)
  | [], k, v => [(k, v)]
  | (k1, v1) :: rest, k, v =>
      if k1 = k then (k1, v) :: rest else (k1, v1) :: pyInsert rest k v

/-- Python `d.update(e)`: insert every pair of `e` into `d`, in order. -/
def dictUpdate {α : Type} (d e : List (String × α)) : List (String × α) :=
  e.foldl (fun acc p => pyInsert acc p.1 p.2) d

/-- `attributes.get('classes', [])`, for the list-valued shape the code
expects (a non-list value would make the Python `+` raise; such inputs
are outside the modelled JSON shape). -/
def getClasses (d : Dict) : List String :=
  match dictLookup d "classes" with
  | some (AVal.ls l) => l
  | _ => []

/-- `element.get('paths', [])`, same convention as `getClasses`. -/
def getPaths (d : Dict) : List String :=
  match dictLookup d "paths" with
  | some (AVal.ls l) => l
  | _ => []

/-- The whitelist `valid_attrs` of `src/graph.py` (lines 8-181), verbatim;
`'rank'` is commented out in the source and hence absent. -/
def valid_attrs : List String := [
  "_background", "area", "arrowhead", "arrowsize", "arrowtail", "bb",
  "bgcolor", "center", "charset", "class", "clusterrank", "color",
  "colorscheme", "comment", "compound", "concentrate", "constraint",
  "Damping", "decorate", "defaultdist", "dim", "dimen", "dir",
  "diredgeconstraints", "distortion", "dpi", "edgehref", "edgetarget",
  "edgetooltip", "edgeURL", "epsilon", "esep", "fillcolor", "fixedsize",
  "fontcolor", "fontname", "fontnames", "fontpath", "fontsize",
  "forcelabels", "gradientangle", "group", "head_lp", "headclip",
  "headhref", "headlabel", "headport", "headtarget", "headtooltip",
  "headURL", "height", "href", "id", "image", "imagepath", "imagepos",
  "imagescale", "inputscale", "K", "label", "label_scheme", "labelangle",
  "labeldistance", "labelfloat", "labelfontcolor", "labelfontname",
  "labelfontsize", "labelhref", "labeljust", "labelloc", "labeltarget",
  "labeltooltip", "labelURL", "landscape", "layer", "layerlistsep",
  "layers", "layerselect", "layersep", "layout", "len", "levels",
  "levelsgap", "lhead", "lheight", "lp", "ltail", "lwidth", "margin",
  "maxiter", "mclimit", "mindist", "minlen", "mode", "model", "mosek",
  "newrank", "nodesep", "nojustify", "normalize", "notranslate",
  "nslimit", "nslimit1", "ordering", "orientation", "outputorder",
  "overlap", "overlap_scaling", "overlap_shrink", "pack", "packmode",
  "pad", "page", "pagedir", "pencolor", "penwidth", "peripheries", "pin",
  "pos", "quadtree", "quantum", "rankdir", "ranksep", "ratio", "rects",
  "regular", "remincross", "repulsiveforce", "resolution", "root",
  "rotate", "rotation", "samehead", "sametail", "samplepoints", "scale",
  "searchsize", "sep", "shape", "shapefile", "showboxes", "sides",
  "size", "skew", "smoothing", "sortv", "splines", "start", "style",
  "stylesheet", "tail_lp", "tailclip", "tailhref", "taillabel",
  "tailport", "tailtarget", "tailtooltip", "tailURL", "target",
  "tooltip", "truecolor", "URL", "vertices", "viewport", "voro_margin",
  "weight", "width", "xdotversion", "xlabel", "xlp", "z"]

/-- Backend statements recorded in place of graphviz calls: node and edge
creation, raw body lines (rank groupings) and attached subgraphs. -/
inductive Stmt where
  | node : String → Dict → Stmt
  | edge : String → String → Dict → Stmt
  | raw : String → Stmt
  | subgraphS : String → List Stmt → Stmt

/-- `GraphContext` of `src/graph.py`: the graph handle is represented by
its name, accumulated body statements and the resolved graph attributes;
plus the ambient stylesheet, the rank accumulator `_ranks`, `_level` and
the node-id prefix. -/
structure Ctx where
  gname : String
  styles : List (String × Dict)
  body : List Stmt
  ranks : List (String × List String)
  level : Nat
  prefixStr : String
  graphAttrs : Dict

/-- `GraphContext.base_styles`. -/
def base_styles : List (String × Dict) := [("graph", []), ("node", []), ("edge", [])]

/-- `GraphContext._build_attributes(type, attributes, classes)`
(src/graph.py lines 340-356).  `self.styles` is passed explicitly.  The
`ty` parameter is unused, exactly as `type` is unused in the source. -/
def _build_attributes (ty : String) (styles : List (String × Dict))
    (attributes : Dict) (classes : List String) : Dict :=
  let attrs : Dict := []
  let attrs := (classes ++ getClasses attributes).foldl
    (fun acc c => dictUpdate acc ((dictLookup styles c).getD [])) attrs
  let attrs := if attributes.isEmpty then attrs else dictUpdate attrs attributes
  attrs.filter (fun p => valid_attrs.contains p.1)

/-- `GraphContext.node_id` (src/graph.py lines 302-305). -/
def node_id (ctx : Ctx) (name : String) : String :=
  if ctx.prefixStr = "" then name else ctx.prefixStr ++ "_" ++ name

/-- `GraphContext.add_node` (src/graph.py lines 321-338).  The raw
`name`, not the prefixed id, is appended to the rank accumulator; the
`rank` key is left inside `attributes` (the whitelist drops it during
resolution).  A non-string `rank` value is outside the modelled JSON
shape (string rank ids) and leaves the accumulator unchanged. -/
def add_node (ctx : Ctx) (name : String) (attributes : Dict)
    (classes : List String) : Ctx :=
  let ctx1 :=
    match dictLookup attributes "rank" with
    | some (AVal.s rank_name) =>
        let rank_nodes := (dictLookup ctx.ranks rank_name).getD []
        { ctx with ranks := pyInsert ctx.ranks rank_name (rank_nodes ++ [name]) }
    | _ => ctx
  let attrs := _build_attributes "node" ctx1.styles attributes classes
  { ctx1 with body := ctx1.body ++ [Stmt.node (node_id ctx1 name) attrs] }

/-- `GraphContext.add_edge` (src/graph.py lines 307-319): endpoints are
taken verbatim from `edge['from']` / `edge['to']`; a missing endpoint is
a Python `KeyError`, modelled as `none`. -/
def add_edge (ctx : Ctx) (edge : Dict) (attributes : Dict)
    (classes : List String) : Option Ctx :=
  match dictLookup edge "from", dictLookup edge "to" with
  | some (AVal.s f), some (AVal.s t) =>
      let attrs := _build_attributes "edge" ctx.styles attributes classes
      some { ctx with body := ctx.body ++ [Stmt.edge f t attrs] }
  | _, _ => none

/-- `GraphContext.add_rank` (src/graph.py lines 358-366): a rank name
absent from the accumulator makes `' '.join(None)` raise a `TypeError`,
modelled as `none`. -/
def add_rank (ctx : Ctx) (rank_name rank_type : String) : Option Ctx :=
  match dictLookup ctx.ranks rank_name with
  | none => none
  | some rank_nodes =>
      some { ctx with body := ctx.body ++
        [Stmt.raw ("\x7brank=" ++ rank_type ++ "; " ++
          String.intercalate " " rank_nodes ++ "\x7d")] }

/-- The rank-merging loop of `GraphContext.add_subgraph_from_context`
(src/graph.py lines 296-297). -/
def merge_ranks (own child : List (String × List String)) :
    List (String × List String) :=
  child.foldl
    (fun acc p => pyInsert acc p.1 ((dictLookup acc p.1).getD [] ++ p.2)) own

/-- `GraphContext.add_subgraph_from_context` (src/graph.py lines
292-297). -/
def add_subgraph_from_context (ctx child : Ctx) : Ctx :=
  { ctx with
    body := ctx.body ++ [Stmt.subgraphS child.gname child.body],
    ranks := merge_ranks ctx.ranks child.ranks }

/-- A JSON model (section 3 of the docstring of `GraphContext`): the
recognised keys become fields, in order `nodes`, `edges`, `subgraphs`,
`ranks`, `classes`, `styles`, `prefix`, any further (attribute) keys,
`visible`, `cluster`.  An absent key is identified with its falsy
default. -/
inductive Model where
  | mk : List (String × Dict) → List Dict → List (String × Model) →
         List (String × String) → List String → List (String × Dict) →
         String → Dict → Option Bool → Bool → Model

/-- The `nodes` mapping of a model. -/
def Model.nodes : Model → List (String × Dict)
  | .mk n _ _ _ _ _ _ _ _ _ => n

/-- The `edges` sequence of a model. -/
def Model.edges : Model → List Dict
  | .mk _ e _ _ _ _ _ _ _ _ => e

/-- The `subgraphs` mapping of a model. -/
def Model.subgraphs : Model → List (String × Model)
  | .mk _ _ s _ _ _ _ _ _ _ => s

/-- The `ranks` mapping of a model. -/
def Model.ranks : Model → List (String × String)
  | .mk _ _ _ r _ _ _ _ _ _ => r

/-- The `classes` list of a model. -/
def Model.classes : Model → List String
  | .mk _ _ _ _ c _ _ _ _ _ => c

/-- The `styles` mapping of a model. -/
def Model.styles : Model → List (String × Dict)
  | .mk _ _ _ _ _ st _ _ _ _ => st

/-- The `prefix` entry of a model (`model.get('prefix', '')`). -/
def Model.prefixStr : Model → String
  | .mk _ _ _ _ _ _ p _ _ _ => p

/-- The remaining top-level entries of a model (plain attribute keys). -/
def Model.attrs : Model → Dict
  | .mk _ _ _ _ _ _ _ a _ _ => a

/-- The `visible` entry of a model, `none` when absent. -/
def Model.visible : Model → Option Bool
  | .mk _ _ _ _ _ _ _ _ v _ => v

/-- The `cluster` entry of a model (absent = `false`). -/
def Model.cluster : Model → Bool
  | .mk _ _ _ _ _ _ _ _ _ c => c

/-- `GraphContext.__init__` (src/graph.py lines 257-276).  The graph
attributes resolve the model's own top-level entries; the keys holding
the nested structure (`nodes`, `edges`, ...) are not in the whitelist,
so only `classes` (read twice, idempotently) and the flat attribute
entries of the model take part. -/
def GraphContext.init (model : Model) (graph_name : String)
    (styles : List (String × Dict)) (prefixStr : String) (level : Nat) : Ctx :=
  let styles2 := dictUpdate base_styles styles
  let graph_attrs := _build_attributes "graph" styles2
    (("classes", AVal.ls model.classes) :: model.attrs) model.classes
  { gname := graph_name, styles := styles2, body := [], ranks := [],
    level := level, prefixStr := prefixStr, graphAttrs := graph_attrs }

/-- `GraphContext.new_context` (src/graph.py lines 281-290). -/
def new_context (ctx : Ctx) (name : String) (model : Model) : Ctx :=
  let styles := dictUpdate ctx.styles model.styles
  GraphContext.init model name styles model.prefixStr (ctx.level + 1)

/-- `add_nodes` of the walker (src/graph.py lines 384-386). -/
def add_nodes (ctx : Ctx) (nodes : List (String × Dict)) : Ctx :=
  nodes.foldl (fun c p => add_node c p.1 p.2 []) ctx

/-- `add_edges` of the walker (src/graph.py lines 398-400); the walker
passes no separate attributes or classes. -/
def add_edges (ctx : Ctx) (edges : List Dict) : Option Ctx :=
  edges.foldlM (fun c e => add_edge c e [] []) ctx

/-- `add_ranks` of the walker (src/graph.py lines 403-405). -/
def add_ranks (ctx : Ctx) (ranks : List (String × String)) : Option Ctx :=
  ranks.foldlM (fun c p => add_rank c p.1 p.2) ctx

/-- The loop of `add_subgraphs` of the walker (src/graph.py lines
389-395), with the recursive walk of the sub-model passed in as `wm`. -/
def add_subgraphs_go (wm : Ctx → Model → Option Ctx) :
    Ctx → List (String × Model) → Option Ctx
  | ctx, [] => some ctx
  | ctx, (subgraph_name, model) :: rest =>
    let subgraph_ctx := new_context ctx subgraph_name model
    match wm subgraph_ctx model with
    | none => none
    | some sc => add_subgraphs_go wm (add_subgraph_from_context ctx sc) rest

/-- `walk_model` (src/graph.py lines 377-381): nodes, then subgraphs,
then edges, then ranks. -/
def walk_model : Nat → Ctx → Model → Option Ctx
  | 0, _, _ => none
  | fuel + 1, ctx, model =>
    let c1 := add_nodes ctx model.nodes
    match add_subgraphs_go (fun c m => walk_model fuel c m) c1 model.subgraphs with
    | none => none
    | some c2 =>
      match add_edges c2 model.edges with
      | none => none
      | some c3 => add_ranks c3 model.ranks

/-- `add_subgraphs` of the walker (src/graph.py lines 389-395). -/
def add_subgraphs (fuel : Nat) (ctx : Ctx)
    (subgraphs : List (String × Model)) : Option Ctx :=
  add_subgraphs_go (fun c m => walk_model fuel c m) ctx subgraphs

/-- Python `s.startswith(pre)`, on the character lists of the strings
(an executable equivalent of `String.startsWith`). -/
def strStartsWith (s pre : String) : Bool :=
  pre.data.isPrefixOf s.data

/-- Python `s[n:]`, dropping `n` characters (an executable equivalent of
`String.drop`). -/
def strDrop (s : String) (n : Nat) : String :=
  ⟨s.data.drop n⟩

/-- The configuration of `GraphOverlay.__init__`
(src/overlays/graphviz.py lines 21-36), after the comma-split: the three
path lists and the `remove_deselected` switch. -/
structure Config where
  selected_paths : List String
  highlighted_paths : List String
  shaded_paths : List String
  remove_deselected : Bool

/-- `GraphOverlay.paths_in_paths` (src/overlays/graphviz.py lines
200-220).  The loop returns `True` at the first candidate path starting
with any entry of `selected_paths` (negated entries included, caret and
all); otherwise the negated check decides. -/
def paths_in_paths (paths selected_paths : List String) : Bool :=
  if selected_paths = [""] then false
  else
    let inverted_paths :=
      (selected_paths.filter (fun p => strStartsWith p "^")).map (fun p => strDrop p 1)
    if paths.any (fun path => selected_paths.any (fun p => strStartsWith path p)) then
      true
    else
      ! inverted_paths.isEmpty &&
        ! paths.any (fun path => inverted_paths.any (fun p => strStartsWith path p))

/-- `GraphOverlay.in_a_selected_path` (src/overlays/graphviz.py lines
194-198). -/
def in_a_selected_path (cfg : Config) (paths : List String) : Bool :=
  if cfg.selected_paths = [""] then true
  else paths_in_paths paths cfg.selected_paths

/-- `GraphOverlay.is_highlighted` (src/overlays/graphviz.py lines
188-189). -/
def is_highlighted (cfg : Config) (paths : List String) : Bool :=
  paths_in_paths paths cfg.highlighted_paths

/-- `GraphOverlay.is_shaded` (src/overlays/graphviz.py lines 191-192). -/
def is_shaded (cfg : Config) (paths : List String) : Bool :=
  paths_in_paths paths cfg.shaded_paths

/-- `GraphOverlay.subgraph_path` (src/overlays/graphviz.py lines
183-186). -/
def subgraph_path (subgraph_name current_path : String) : String :=
  if current_path ≠ "" then current_path ++ "." ++ subgraph_name
  else subgraph_name

/-- `GraphOverlay.preprocess_element` (src/overlays/graphviz.py lines
164-181) on a node or edge dict; the Python function mutates `elem` in
place and returns it. -/
def preprocess_element (cfg : Config) (elem : Dict) (paths : List String) : Dict :=
  let elem :=
    if ! in_a_selected_path cfg paths then pyInsert elem "visible" (AVal.b false)
    else pyInsert elem "visible" (AVal.b true)
  let elem :=
    if is_highlighted cfg paths then
      pyInsert elem "classes" (AVal.ls (getClasses elem ++ ["highlighted"]))
    else elem
  let elem :=
    if is_shaded cfg paths then
      pyInsert elem "classes" (AVal.ls (getClasses elem ++ ["shaded"]))
    else elem
  elem

/-- `model['cluster'] = True` on a subgraph model
(src/overlays/graphviz.py line 130). -/
def Model.setCluster : Model → Model
  | .mk n e s r c st p a v _ => .mk n e s r c st p a v true

/-- `model['visible'] = b` on a subgraph model. -/
def Model.setVisible : Model → Bool → Model
  | .mk n e s r c st p a _ cl, b => .mk n e s r c st p a (some b) cl

/-- `model['classes'] = model.get('classes', []) + [cls]` on a subgraph
model. -/
def Model.addClass : Model → String → Model
  | .mk n e s r c st p a v cl, cls => .mk n e s r (c ++ [cls]) st p a v cl

/-- `GraphOverlay.preprocess_element` applied to a (processed) subgraph
model, where `visible` and `classes` live in the corresponding model
fields. -/
def preprocess_element_model (cfg : Config) (m : Model)
    (paths : List String) : Model :=
  let m := m.setVisible (in_a_selected_path cfg paths)
  let m := if is_highlighted cfg paths then m.addClass "highlighted" else m
  let m := if is_shaded cfg paths then m.addClass "shaded" else m
  m

/-- `GraphOverlay.preprocess_nodes` (src/overlays/graphviz.py lines
95-107).  First component: the returned `selected_nodes`; second: the
state of the input `nodes` mapping after the call (kept nodes are the
same dict objects, mutated by `preprocess_element`; skipped nodes are
untouched). -/
def preprocess_nodes (cfg : Config) :
    List (String × Dict) → List String →
    List (String × Dict) × List (String × Dict)
  | [], _ => ([], [])
  | (nodeid, node) :: rest, paths =>
    let node_paths := paths ++ getPaths node
    if ! in_a_selected_path cfg node_paths && cfg.remove_deselected then
      let (sel, aft) := preprocess_nodes cfg rest paths
      (sel, (nodeid, node) :: aft)
    else
      let node2 := preprocess_element cfg node node_paths
      let (sel, aft) := preprocess_nodes cfg rest paths
      ((nodeid, node2) :: sel, (nodeid, node2) :: aft)

/-- `GraphOverlay.preprocess_edges` (src/overlays/graphviz.py lines
109-122), same state-passing convention as `preprocess_nodes`. -/
def preprocess_edges (cfg : Config) :
    List Dict → List String → List Dict × List Dict
  | [], _ => ([], [])
  | edge :: rest, paths =>
    let edge_paths := paths ++ getPaths edge
    if ! in_a_selected_path cfg edge_paths && cfg.remove_deselected then
      let (sel, aft) := preprocess_edges cfg rest paths
      (sel, edge :: aft)
    else
      let edge2 := preprocess_element cfg edge edge_paths
      let (sel, aft) := preprocess_edges cfg rest paths
      (edge2 :: sel, edge2 :: aft)

/-- The loop of `GraphOverlay.preprocess_subgraphs`
(src/overlays/graphviz.py lines 124-162), with the recursive processing
of the sub-model passed in as `pm`.  `acc` is the `selected_subgraphs`
dict built so far; on the collapse branch the Python `return` ends the
loop, so the remaining entries appear untouched in the after-state and
contribute nothing to the output.  The incoming `paths` parameter of the
source is dead (line 134 rebinds it) and is omitted. -/
def preprocess_subgraphs_go (cfg : Config)
    (pm : Model → String → Option (Model × Model)) :
    List (String × Model) → List (String × Model) → String →
    Option (List (String × Model) × List (String × Model))
  | acc, [], _ => some (acc, [])
  | acc, (subgraph_name, subgraph) :: rest, current_path =>
    let subgraph_name2 :=
      if strStartsWith subgraph_name "cluster_" then strDrop subgraph_name 8
      else subgraph_name
    let subgraph2 :=
      if strStartsWith subgraph_name "cluster_" then subgraph.setCluster
      else subgraph
    let sp := subgraph_path subgraph_name2 current_path
    let paths := [sp]
    match pm subgraph2 sp with
    | none => none
    | some (processed0, subAfter) =>
      let processed := preprocess_element_model cfg processed0 paths
      if ! in_a_selected_path cfg paths then
        if cfg.remove_deselected &&
            ! (! processed.nodes.isEmpty || ! processed.edges.isEmpty) then
          some (dictUpdate acc processed.subgraphs,
                (subgraph_name, subAfter) :: rest)
        else
          match preprocess_subgraphs_go cfg pm
              (pyInsert acc subgraph_name2 processed) rest current_path with
          | none => none
          | some (out, restAfter) =>
              some (out, (subgraph_name, subAfter) :: restAfter)
      else
        let processed2 :=
          if ! (! processed.nodes.isEmpty || ! processed.edges.isEmpty) then
            processed.setVisible false
          else processed
        match preprocess_subgraphs_go cfg pm
            (pyInsert acc subgraph_name2 processed2) rest current_path with
        | none => none
        | some (out, restAfter) =>
            some (out, (subgraph_name, subAfter) :: restAfter)

/-- `GraphOverlay.preprocess_model` (src/overlays/graphviz.py lines
67-93).  `model.copy()` is a shallow copy: the first component replaces
the `nodes` / `edges` / `subgraphs` fields of the copy; the second is
the state of the input model after the call (its element records are
mutated through the shared references, its own top-level structure is
untouched). -/
def preprocess_model (cfg : Config) : Nat → Model → String → Option (Model × Model)
  | 0, _, _ => none
  | fuel + 1, model, current_path =>
    match model with
    | .mk nodes edges subgraphs ranks classes styles prefixStr attrs visible cluster =>
      let paths := if current_path ≠ "" then [current_path] else []
      let (newNodes, nodesAfter) := preprocess_nodes cfg nodes paths
      let (newEdges, edgesAfter) := preprocess_edges cfg edges paths
      match preprocess_subgraphs_go cfg
          (fun m p => preprocess_model cfg fuel m p) [] subgraphs current_path with
      | none => none
      | some (newSubs, subsAfter) =>
        some (.mk newNodes newEdges newSubs ranks classes styles prefixStr attrs visible cluster,
              .mk nodesAfter edgesAfter subsAfter ranks classes styles prefixStr attrs visible cluster)

/-- `GraphOverlay.preprocess_subgraphs` (src/overlays/graphviz.py lines
124-162): the loop, processing each sub-model with fuel `fuel`. -/
def preprocess_subgraphs (cfg : Config) (fuel : Nat)
    (acc : List (String × Model)) (subgraphs : List (String × Model))
    (current_path : String) :
    Option (List (String × Model) × List (String × Model)) :=
  preprocess_subgraphs_go cfg (fun m p => preprocess_model cfg fuel m p)
    acc subgraphs current_path

/-- The non-negated entries of a configured list, as the claim reads the
matching rule. -/
def plain_prefixes (config : List String) : List String :=
  config.filter (fun p => ! strStartsWith p "^")

/-- The negated entries of a configured list, leading `^` stripped. -/
def inverted_prefixes (config : List String) : List String :=
  (config.filter (fun p => strStartsWith p "^")).map (fun p => strDrop p 1)

/-- The matching rule exactly as the claim words it (for comparison with
`paths_in_paths`): the short-circuit true case consults only the plain
prefixes. -/
def claim_matches (paths config : List String) : Bool :=
  if config = [""] then false
  else if paths.any (fun path => (plain_prefixes config).any (fun p => strStartsWith path p)) then
    true
  else
    ! (inverted_prefixes config).isEmpty &&
      ! paths.any (fun path => (inverted_prefixes config).any (fun p => strStartsWith path p))

/-- The resolution order exactly as the claim words it (for comparison
with `_build_attributes`): the ambient base style for the kind first,
then the class styles, then the direct attributes, filtered. -/
def resolve_claim (kind : String) (styles : List (String × Dict))
    (attributes : Dict) (classes : List String) : Dict :=
  let attrs := (dictLookup styles kind).getD []
  let attrs := (classes ++ getClasses attributes).foldl
    (fun acc c => dictUpdate acc ((dictLookup styles c).getD [])) attrs
  let attrs := dictUpdate attrs attributes
  attrs.filter (fun p => valid_attrs.contains p.1)

/-- Overlay configuration with the default (empty) selectors and
`remove_deselected` off. -/
def cfg0 : Config := ⟨[""], [""], [""], false⟩

/-- Overlay configuration `select='b'`, `remove_deselected` on. -/
def cfgC1 : Config := ⟨["b"], [""], [""], true⟩

/-- A model with every key absent. -/
def emptyM : Model := .mk [] [] [] [] [] [] "" [] none false

/-- A model holding the single attribute-less node `n`. -/
def mEx : Model := .mk [("n", [])] [] [] [] [] [] "" [] none false

/-- A model whose `ranks` mapping names a rank `r` that no node joins. -/
def mR : Model := .mk [] [] [] [("r", "same")] [] [] "" [] none false

/-- A context with node-id prefix `p`. -/
def ctxP : Ctx :=
  { gname := "G", styles := base_styles, body := [], ranks := [],
    level := 0, prefixStr := "p", graphAttrs := [] }

/-- The root context of an empty model. -/
def ctx0 : Ctx := GraphContext.init emptyM "G" [] "" 0

/-- A parent context whose accumulator already holds rank `r`. -/
def ctxA : Ctx :=
  { gname := "G", styles := base_styles, body := [],
    ranks := [("r", ["a"])], level := 0, prefixStr := "", graphAttrs := [] }

/-- A child context with its own rank lists. -/
def ctxB : Ctx :=
  { gname := "S", styles := base_styles, body := [],
    ranks := [("r", ["b"]), ("q", ["c"])], level := 1, prefixStr := "",
    graphAttrs := [] }

/-- A stylesheet carrying only a base style for kind `node`. -/
def styles0 : List (String × Dict) := [("node", [("color", AVal.s "red")])]

/-- A stylesheet with a base `node` style and a class `c1`, staging the
claim's precedence example on whitelisted keys. -/
def styles1 : List (String × Dict) :=
  [("node", [("color", AVal.s "1")]),
   ("c1", [("color", AVal.s "2"), ("shape", AVal.s "2")])]

theorem dictLookup_pyInsert_self {α : Type} (l : List (String × α)) (k : String) (v : α) :
    dictLookup (pyInsert l k v) k = some v := by
  induction l with
  | nil => simp [pyInsert, dictLookup]
  | cons h t ih =>
    obtain ⟨k1, v1⟩ := h
    by_cases hk : k1 = k
    · simp [pyInsert, hk, dictLookup]
    · simp [pyInsert, hk, dictLookup, ih]

theorem dictLookup_pyInsert_ne {α : Type} (l : List (String × α)) (k : String) (v : α)
    (k2 : String) (h : k2 ≠ k) :
    dictLookup (pyInsert l k v) k2 = dictLookup l k2 := by
  have h2 : ¬ k = k2 := fun h1 => h h1.symm
  induction l with
  | nil => simp [pyInsert, dictLookup, h2]
  | cons hd t ih =>
    obtain ⟨k1, v1⟩ := hd
    by_cases hk : k1 = k
    · subst hk
      simp only [pyInsert, if_pos rfl]
      simp [dictLookup, h2]
    · simp [pyInsert, hk, dictLookup, ih]

theorem dictLookup_eq_none_of_not_mem {α : Type} (l : List (String × α)) (k : String)
    (h : k ∉ l.map Prod.fst) : dictLookup l k = none := by
  induction l with
  | nil => simp [dictLookup]
  | cons hd t ih =>
    obtain ⟨k1, v1⟩ := hd
    simp only [List.map_cons, List.mem_cons] at h
    push_neg at h
    have h2 : ¬ k1 = k := fun h1 => h.1 h1.symm
    simp [dictLookup, h2, ih h.2]

theorem dictLookup_dictUpdate {α : Type} (e d : List (String × α)) (k : String)
    (h : (e.map Prod.fst).Nodup) :
    dictLookup (dictUpdate d e) k = (dictLookup e k).or (dictLookup d k) := by
  induction e generalizing d with
  | nil => simp [dictUpdate, dictLookup]
  | cons hd t ih =>
    obtain ⟨k1, v1⟩ := hd
    simp only [List.map_cons, List.nodup_cons] at h
    have step : dictUpdate d ((k1, v1) :: t) = dictUpdate (pyInsert d k1 v1) t := rfl
    rw [step, ih _ h.2]
    by_cases hk : k1 = k
    · subst hk
      rw [dictLookup_eq_none_of_not_mem t k1 h.1]
      simp [dictLookup, dictLookup_pyInsert_self]
    · rw [dictLookup_pyInsert_ne _ _ _ _ (fun h1 => hk h1.symm)]
      simp [dictLookup, hk]

theorem dictLookup_filter {α : Type} (f : String → Bool) (l : List (String × α)) (k : String) :
    dictLookup (l.filter (fun p => f p.1)) k =
      if f k then dictLookup l k else none := by
  induction l with
  | nil => simp [dictLookup]
  | cons hd t ih =>
    obtain ⟨k1, v1⟩ := hd
    by_cases hk : k1 = k
    · subst hk
      by_cases hf : f k1
      · simp [List.filter, hf, dictLookup, ih]
      · simp [List.filter, hf, dictLookup, ih]
    · by_cases hf : f k1
      · simp [List.filter, hf, dictLookup, hk, ih]
      · simp [List.filter, hf, dictLookup, hk, ih]

theorem merge_ranks_lookup (child : List (String × List String))
    (own : List (String × List String)) (r : String)
    (h : (child.map Prod.fst).Nodup) :
    (dictLookup (merge_ranks own child) r).getD [] =
      (dictLookup own r).getD [] ++ (dictLookup child r).getD [] := by
  induction child generalizing own with
  | nil => simp [merge_ranks, dictLookup]
  | cons hd t ih =>
    obtain ⟨k, ns⟩ := hd
    simp only [List.map_cons, List.nodup_cons] at h
    have step : merge_ranks own ((k, ns) :: t) =
        merge_ranks (pyInsert own k ((dictLookup own k).getD [] ++ ns)) t := rfl
    rw [step, ih _ h.2]
    by_cases hr : r = k
    · subst hr
      rw [dictLookup_pyInsert_self, dictLookup_eq_none_of_not_mem t r h.1]
      simp [dictLookup]
    · rw [dictLookup_pyInsert_ne _ _ _ _ hr]
      have h2 : ¬ k = r := fun h1 => hr h1.symm
      simp [dictLookup, h2]

theorem add_rank_ranks (ctx : Ctx) (r t : String) (c2 : Ctx)
    (h : add_rank ctx r t = some c2) : c2.ranks = ctx.ranks := by
  unfold add_rank at h
  cases hl : dictLookup ctx.ranks r with
  | none => rw [hl] at h; exact absurd h (by simp)
  | some ns => rw [hl] at h; cases h; rfl

theorem add_ranks_none (ranks : List (String × String)) (ctx : Ctx) (r t : String)
    (hm : (r, t) ∈ ranks) (hl : dictLookup ctx.ranks r = none) :
    add_ranks ctx ranks = none := by
  induction ranks generalizing ctx with
  | nil => cases hm
  | cons hd tl ih =>
    obtain ⟨r0, t0⟩ := hd
    unfold add_ranks
    rw [List.foldlM_cons]
    rcases List.mem_cons.mp hm with heq | hmem
    · obtain ⟨h1, h2⟩ := Prod.mk.injEq .. ▸ heq
      subst h1
      unfold add_rank
      rw [hl]
      rfl
    · cases hr : add_rank ctx r0 t0 with
      | none => rfl
      | some c2 =>
        have hranks := add_rank_ranks ctx r0 t0 c2 hr
        have := ih c2 hmem (hranks ▸ hl)
        unfold add_ranks at this
        simpa using this

theorem preprocess_element_visible (cfg : Config) (e : Dict) (ps : List String) :
    dictLookup (preprocess_element cfg e ps) "visible" =
      some (AVal.b (in_a_selected_path cfg ps)) := by
  unfold preprocess_element
  by_cases h1 : in_a_selected_path cfg ps <;>
    by_cases h2 : is_highlighted cfg ps <;>
    by_cases h3 : is_shaded cfg ps <;>
    simp [h1, h2, h3, dictLookup_pyInsert_self,
      dictLookup_pyInsert_ne _ "classes" _ "visible" (by decide)]

theorem preprocess_model_after (cfg : Config) (fuel : Nat) (m : Model)
    (cp : String) (a b : Model)
    (h : preprocess_model cfg fuel m cp = some (a, b)) :
    b.nodes = (preprocess_nodes cfg m.nodes (if cp ≠ "" then [cp] else [])).2 ∧
    b.edges = (preprocess_edges cfg m.edges (if cp ≠ "" then [cp] else [])).2 ∧
    b.cluster = m.cluster := by
  cases fuel with
  | zero => simp [preprocess_model] at h
  | succ k =>
    cases m with
    | mk nodes edges subgraphs ranks classes styles prefixStr attrs visible cluster =>
      rcases hn : preprocess_nodes cfg nodes (if cp ≠ "" then [cp] else []) with
        ⟨newNodes, nodesAfter⟩
      rcases he : preprocess_edges cfg edges (if cp ≠ "" then [cp] else []) with
        ⟨newEdges, edgesAfter⟩
      rcases hgo : preprocess_subgraphs_go cfg
          (fun m p => preprocess_model cfg k m p) [] subgraphs cp with _ | ⟨newSubs, subsAfter⟩
      · simp only [preprocess_model, hn, he, hgo] at h
        exact Option.noConfusion h
      · simp only [preprocess_model, hn, he, hgo, Option.some.injEq,
          Prod.mk.injEq] at h
        obtain ⟨_, hb⟩ := h
        subst hb
        simp only [ne_eq, ite_not] at hn he
        simp [Model.nodes, Model.edges, Model.cluster, hn, he]

/-- C1, counterexample: with `select='b'` and `remove_deselected` set,
the sibling mapping `{a: {}, b: {}}` collapses `a` (empty, deselected)
and the Python `return` then ends the loop, so the selected sibling `b`
is neither processed nor added — the output is empty, although the claim
requires `b` to appear.  Processing `{b: {}}` alone does keep `b`. -/
theorem c1_counterexample :
    (preprocess_subgraphs cfgC1 1 [] [("a", emptyM), ("b", emptyM)] "").map
      (fun p => p.1.map Prod.fst) = some [] ∧
    (preprocess_subgraphs cfgC1 1 [] [("b", emptyM)] "").map
      (fun p => p.1.map Prod.fst) = some ["b"] := by decide

/-- C1, amended: when a subgraph entry is deselected under
`remove_deselected` and its processed model has no nodes and no edges,
its already-processed child subgraphs are spliced into the output in its
place and the entry itself is absent — but the function returns at that
point, so the remaining sibling entries are not processed and contribute
nothing to the output. -/
theorem c1_amended (cfg : Config) (fuel : Nat) (acc : List (String × Model))
    (name : String) (sub : Model) (rest : List (String × Model)) (cp : String)
    (processed0 subAfter : Model)
    (hrd : cfg.remove_deselected = true)
    (hm : preprocess_model cfg fuel
        (if strStartsWith name "cluster_" then sub.setCluster else sub)
        (subgraph_path (if strStartsWith name "cluster_" then strDrop name 8 else name) cp)
      = some (processed0, subAfter))
    (hsel : in_a_selected_path cfg
        [subgraph_path (if strStartsWith name "cluster_" then strDrop name 8 else name) cp]
      = false)
    (hnodes : (preprocess_element_model cfg processed0
        [subgraph_path (if strStartsWith name "cluster_" then strDrop name 8 else name) cp]).nodes
      = [])
    (hedges : (preprocess_element_model cfg processed0
        [subgraph_path (if strStartsWith name "cluster_" then strDrop name 8 else name) cp]).edges
      = []) :
    preprocess_subgraphs cfg fuel acc ((name, sub) :: rest) cp =
      some (dictUpdate acc
          (preprocess_element_model cfg processed0
            [subgraph_path (if strStartsWith name "cluster_" then strDrop name 8 else name) cp]).subgraphs,
        (name, subAfter) :: rest) := by
  unfold preprocess_subgraphs preprocess_subgraphs_go
  simp only [hm]
  simp [hrd, hsel, hnodes, hedges]

/-- C1, witness for the amended theorem at the concrete collapsing
input. -/
theorem c1_amended_witness :
    cfgC1.remove_deselected = true ∧
    preprocess_subgraphs cfgC1 1 [] [("a", emptyM), ("b", emptyM)] "" =
      some ([], [("a", emptyM), ("b", emptyM)]) :=
  ⟨rfl, c1_amended cfgC1 1 [] "a" emptyM [("b", emptyM)] "" emptyM emptyM
    rfl rfl rfl rfl rfl⟩

/-- C2, counterexample: in a context with prefix `p`, adding node `x`
with `rank: r` appends the raw id `x` to the accumulator, not the
prefixed id `p_x` the claim requires (the node itself is emitted as
`p_x`). -/
theorem c2_counterexample :
    dictLookup (add_node ctxP "x" [("rank", AVal.s "r")] []).ranks "r" = some ["x"] ∧
    node_id ctxP "x" = "p_x" ∧
    dictLookup (add_node ctxP "x" [("rank", AVal.s "r")] []).ranks "r" ≠
      some ["p_x"] := by decide

/-- C2, amended: `add_node` with a `rank` attribute appends the raw
(unprefixed) node id to that rank's accumulator and leaves other ranks
untouched; `rank` is not deleted from the attribute mapping, but the
whitelist filter drops it during resolution, so the resolved attributes
carry no `rank`; the backend node is created with the prefixed id and
the resolved attributes. -/
theorem c2_amended (ctx : Ctx) (name : String) (attributes : Dict)
    (classes : List String) (rank_name : String)
    (h : dictLookup attributes "rank" = some (AVal.s rank_name)) :
    dictLookup (add_node ctx name attributes classes).ranks rank_name =
      some ((dictLookup ctx.ranks rank_name).getD [] ++ [name]) ∧
    (∀ r2 : String, r2 ≠ rank_name →
      dictLookup (add_node ctx name attributes classes).ranks r2 =
        dictLookup ctx.ranks r2) ∧
    (add_node ctx name attributes classes).body =
      ctx.body ++ [Stmt.node (node_id ctx name)
        (_build_attributes "node" ctx.styles attributes classes)] ∧
    dictLookup (_build_attributes "node" ctx.styles attributes classes) "rank" =
      none := by
  refine ⟨?_, ?_, ?_, ?_⟩
  · unfold add_node
    rw [h]
    simp [dictLookup_pyInsert_self]
  · intro r2 hr2
    unfold add_node
    rw [h]
    simp [dictLookup_pyInsert_ne _ _ _ _ hr2]
  · unfold add_node
    rw [h]
    simp [node_id]
  · unfold _build_attributes
    rw [dictLookup_filter]
    have hnr : valid_attrs.contains "rank" = false := by decide
    rw [hnr]
    simp

/-- C2, witness for the amended theorem. -/
theorem c2_amended_witness :
    dictLookup [("rank", AVal.s "r")] "rank" = some (AVal.s "r") ∧
    dictLookup (add_node ctxP "x" [("rank", AVal.s "r")] []).ranks "r" =
      some ((dictLookup ctxP.ranks "r").getD [] ++ ["x"]) :=
  ⟨by decide, (c2_amended ctxP "x" [("rank", AVal.s "r")] [] "r" (by decide)).1⟩

/-- C3, counterexample: the resolver never merges the ambient base style
for the kind — with a base `node` style `{color: red}` and no classes or
direct attributes, `_build_attributes` returns the empty mapping where
the claim's order (base first) would return `{color: red}`. -/
theorem c3_counterexample :
    _build_attributes "node" styles0 [] [] = [] ∧
    resolve_claim "node" styles0 [] [] = [("color", AVal.s "red")] ∧
    _build_attributes "node" styles0 [] [] ≠ resolve_claim "node" styles0 [] [] := by
  decide

/-- C3, amended: attribute resolution merges each class's style in
listed order (caller-passed classes before the element's own `classes`
entries), then the element's direct attributes, later entries overriding
earlier ones, and filters by the whitelist; the base style for the kind
is not merged by the resolver (it is installed as backend default
attributes at graph construction instead).  On whitelisted stand-ins for
the claim's example keys, class `{color:2, shape:2}` and direct
`{shape:3}` over base `{color:1}` resolve to `{color:2, shape:3}`. -/
theorem c3_amended :
    (∀ (ty : String) (styles : List (String × Dict)) (attributes : Dict)
      (classes : List String) (k : String),
      (attributes.map Prod.fst).Nodup →
      dictLookup (_build_attributes ty styles attributes classes) k =
        (if valid_attrs.contains k then
          (dictLookup attributes k).or
            (dictLookup ((classes ++ getClasses attributes).foldl
              (fun acc c => dictUpdate acc ((dictLookup styles c).getD [])) []) k)
        else none)) ∧
    _build_attributes "node" styles1 [("shape", AVal.s "3")] ["c1"] =
      [("color", AVal.s "2"), ("shape", AVal.s "3")] := by
  constructor
  · intro ty styles attributes classes k hnodup
    unfold _build_attributes
    rw [dictLookup_filter]
    cases he : attributes.isEmpty with
    | true =>
      have he2 : attributes = [] := by rwa [List.isEmpty_iff] at he
      subst he2
      simp [dictLookup]
    | false =>
      simp only [Bool.false_eq_true, if_false]
      rw [dictLookup_dictUpdate attributes _ k hnodup]
  · decide

/-- C3, witness for the amended theorem. -/
theorem c3_amended_witness :
    (([("shape", AVal.s "3")] : Dict).map Prod.fst).Nodup ∧
    dictLookup (_build_attributes "node" styles1 [("shape", AVal.s "3")] ["c1"])
      "shape" = some (AVal.s "3") :=
  ⟨by decide,
   (c3_amended.1 "node" styles1 [("shape", AVal.s "3")] ["c1"] "shape"
     (by decide)).trans (by decide)⟩

/-- C4, counterexample: the code's short-circuit check scans every
configured entry verbatim, negations included: with `selected = ['^x']`
the candidate paths `['^x', 'x.y']` match in the code (the literal
`'^x'` starts with the entry `'^x'`), while the claim's rule (plain
prefixes only, then the negated check, which `'x.y'` defeats) says no
match. -/
theorem c4_counterexample :
    paths_in_paths ["^x", "x.y"] ["^x"] = true ∧
    claim_matches ["^x", "x.y"] ["^x"] = false := by decide

/-- C4, amended: for a configured list other than the empty selector,
matching returns true as soon as any candidate path starts with any
configured entry taken verbatim (negated entries included, with their
leading `^`), otherwise exactly when negated prefixes exist and no
candidate path starts with any negated prefix; the claim's examples
(`selected=['^x']`: `['y']` matches, `['x.y']` does not) hold. -/
theorem c4_amended :
    (∀ (paths config : List String),
      paths_in_paths paths config = true ↔
        (config ≠ [""] ∧
          ((∃ path ∈ paths, ∃ p ∈ config, strStartsWith path p = true) ∨
            (inverted_prefixes config ≠ [] ∧
              ∀ path ∈ paths, ∀ p ∈ inverted_prefixes config,
                strStartsWith path p = false)))) ∧
    paths_in_paths ["y"] ["^x"] = true ∧
    paths_in_paths ["x.y"] ["^x"] = false := by
  refine ⟨?_, by decide, by decide⟩
  intro paths config
  unfold paths_in_paths
  by_cases hc : config = [""]
  · simp [hc]
  · simp only [hc, if_false, ne_eq, not_false_iff, true_and]
    by_cases ha : paths.any (fun path => config.any (fun p => strStartsWith path p))
    · simp only [ha, if_true, true_iff]
      left
      simpa [List.any_eq_true] using ha
    · have ha2 : (paths.any fun path => config.any fun p => strStartsWith path p)
          = false := by
        cases hb : (paths.any fun path => config.any fun p => strStartsWith path p)
        · rfl
        · exact absurd hb ha
      rw [ha2]
      simp only [Bool.false_eq_true, if_false]
      rw [Bool.and_eq_true, Bool.not_eq_true', Bool.not_eq_true',
        List.isEmpty_eq_false, List.any_eq_false]
      show (_ ∧ ∀ path ∈ paths, ¬ _ = true) ↔ _
      constructor
      · rintro ⟨hne, hinv⟩
        right
        refine ⟨(by simpa [inverted_prefixes] using hne), ?_⟩
        intro path hp p hpmem
        cases hx : strStartsWith path p with
        | false => rfl
        | true =>
          exact absurd (List.any_eq_true.mpr
            ⟨p, by simpa [inverted_prefixes] using hpmem, hx⟩) (hinv path hp)
      · rintro (hex | ⟨hne, hinv⟩)
        · exact absurd (by simpa [List.any_eq_true] using hex) ha
        · refine ⟨(by simpa [inverted_prefixes] using hne), ?_⟩
          intro path hp hx
          obtain ⟨p, hpmem, hsw⟩ := List.any_eq_true.mp hx
          have := hinv path hp p (by simpa [inverted_prefixes] using hpmem)
          rw [this] at hsw
          cases hsw

/-- C5: with the empty selector as configured list, selection-matching
is true for every path list (`visible = true` on every element), while
highlight- and shade-matching are false and leave the element's classes
unchanged. -/
theorem c5_empty_selector (paths : List String) (elem : Dict) (rd : Bool) :
    in_a_selected_path ⟨[""], [""], [""], rd⟩ paths = true ∧
    paths_in_paths paths [""] = false ∧
    dictLookup (preprocess_element ⟨[""], [""], [""], rd⟩ elem paths) "visible" =
      some (AVal.b true) ∧
    dictLookup (preprocess_element ⟨[""], [""], [""], rd⟩ elem paths) "classes" =
      dictLookup elem "classes" := by
  refine ⟨rfl, rfl, ?_, ?_⟩
  · rw [preprocess_element_visible]
    rfl
  · unfold preprocess_element
    have h1 : in_a_selected_path ⟨[""], [""], [""], rd⟩ paths = true := rfl
    have h2 : is_highlighted ⟨[""], [""], [""], rd⟩ paths = false := rfl
    have h3 : is_shaded ⟨[""], [""], [""], rd⟩ paths = false := rfl
    simp [h1, h2, h3, dictLookup_pyInsert_ne _ "visible" _ "classes" (by decide)]

/-- C6, counterexample: preprocessing mutates the input model: after the
pass over a model with one bare node `n`, the input's node record has
gained a `visible` entry, contradicting the claim that the original
records are unchanged. -/
theorem c6_counterexample :
    ((preprocess_model cfg0 2 mEx "").map (fun p => Model.nodes p.2)) =
      some [("n", [("visible", AVal.b true)])] ∧
    mEx.nodes = [("n", [])] ∧
    ((preprocess_model cfg0 2 mEx "").map (fun p => Model.nodes p.2)) ≠
      some mEx.nodes := by decide

/-- C6, amended: only the top-level mapping of each model level is
copied; the element records are processed in place, so after the pass
(i) the input model's node records are exactly the originals with every
kept record replaced by its `preprocess_element` result (skipped,
deselected-removed records untouched), (ii) likewise the edge records,
(iii) a processed record has gained the `visible` entry, and (iv) a
`cluster_`-named subgraph entry's record has gained `cluster = true`. -/
theorem c6_amended :
    (∀ (cfg : Config) (nodes : List (String × Dict)) (paths : List String),
      (preprocess_nodes cfg nodes paths).2 = nodes.map (fun p =>
        if ! in_a_selected_path cfg (paths ++ getPaths p.2) &&
            cfg.remove_deselected then p
        else (p.1, preprocess_element cfg p.2 (paths ++ getPaths p.2)))) ∧
    (∀ (cfg : Config) (edges : List Dict) (paths : List String),
      (preprocess_edges cfg edges paths).2 = edges.map (fun e =>
        if ! in_a_selected_path cfg (paths ++ getPaths e) &&
            cfg.remove_deselected then e
        else preprocess_element cfg e (paths ++ getPaths e))) ∧
    (∀ (cfg : Config) (d : Dict) (ps : List String),
      dictLookup (preprocess_element cfg d ps) "visible" =
        some (AVal.b (in_a_selected_path cfg ps))) ∧
    (∀ (cfg : Config) (fuel : Nat) (m : Model) (cp : String) (a b : Model),
      preprocess_model cfg fuel m cp = some (a, b) →
      b.nodes = (preprocess_nodes cfg m.nodes (if cp ≠ "" then [cp] else [])).2 ∧
      b.edges = (preprocess_edges cfg m.edges (if cp ≠ "" then [cp] else [])).2 ∧
      b.cluster = m.cluster) ∧
    (∀ (cfg : Config) (fuel : Nat) (acc : List (String × Model)) (name : String)
      (sub : Model) (rest : List (String × Model)) (cp : String)
      (out after : List (String × Model)),
      strStartsWith name "cluster_" = true →
      preprocess_subgraphs cfg fuel acc ((name, sub) :: rest) cp =
        some (out, after) →
      ∃ subAfter restAfter, after = (name, subAfter) :: restAfter ∧
        subAfter.cluster = true) := by
  refine ⟨?_, ?_, ?_, ?_, ?_⟩
  · intro cfg nodes paths
    induction nodes with
    | nil => rfl
    | cons hd t ih =>
      obtain ⟨nodeid, node⟩ := hd
      rcases hrec : preprocess_nodes cfg t paths with ⟨sel, aft⟩
      rw [hrec] at ih
      simp only at ih
      by_cases hsel : (! in_a_selected_path cfg (paths ++ getPaths node) &&
          cfg.remove_deselected) = true
      · have hsel2 := hsel
        simp only [Bool.and_eq_true, Bool.not_eq_true'] at hsel2
        simp [preprocess_nodes, hrec, hsel, hsel2, ih]
      · have hsel2 := hsel
        simp only [Bool.and_eq_true, Bool.not_eq_true'] at hsel2
        simp [preprocess_nodes, hrec, hsel, hsel2, ih]
  · intro cfg edges paths
    induction edges with
    | nil => rfl
    | cons e t ih =>
      rcases hrec : preprocess_edges cfg t paths with ⟨sel, aft⟩
      rw [hrec] at ih
      simp only at ih
      by_cases hsel : (! in_a_selected_path cfg (paths ++ getPaths e) &&
          cfg.remove_deselected) = true
      · have hsel2 := hsel
        simp only [Bool.and_eq_true, Bool.not_eq_true'] at hsel2
        simp [preprocess_edges, hrec, hsel, hsel2, ih]
      · have hsel2 := hsel
        simp only [Bool.and_eq_true, Bool.not_eq_true'] at hsel2
        simp [preprocess_edges, hrec, hsel, hsel2, ih]
  · intro cfg d ps
    exact preprocess_element_visible cfg d ps
  · intro cfg fuel m cp a b h
    exact preprocess_model_after cfg fuel m cp a b h
  · intro cfg fuel acc name sub rest cp out after hsw h
    unfold preprocess_subgraphs preprocess_subgraphs_go at h
    rw [hsw] at h
    simp only [if_true] at h
    rcases hpm : preprocess_model cfg fuel (sub.setCluster)
        (subgraph_path (strDrop name 8) cp) with _ | ⟨p0, subAfter⟩
    · rw [hpm] at h
      simp at h
    · rw [hpm] at h
      have hcl : subAfter.cluster = true := by
        have hpres := (preprocess_model_after cfg fuel (sub.setCluster)
          (subgraph_path (strDrop name 8) cp) p0 subAfter hpm).2.2
        rw [hpres]
        cases sub
        rfl
      simp only at h
      by_cases hs : (! in_a_selected_path cfg [subgraph_path (strDrop name 8) cp]) = true
      · rw [if_pos hs] at h
        by_cases hc : (cfg.remove_deselected &&
            ! (! (preprocess_element_model cfg p0
                [subgraph_path (strDrop name 8) cp]).nodes.isEmpty ||
              ! (preprocess_element_model cfg p0
                [subgraph_path (strDrop name 8) cp]).edges.isEmpty)) = true
        · rw [if_pos hc] at h
          simp only [Option.some.injEq, Prod.mk.injEq] at h
          exact ⟨subAfter, rest, h.2.symm, hcl⟩
        · rw [if_neg hc] at h
          rcases hrec : preprocess_subgraphs_go cfg
              (fun m p => preprocess_model cfg fuel m p)
              (pyInsert acc (strDrop name 8)
                (preprocess_element_model cfg p0
                  [subgraph_path (strDrop name 8) cp])) rest cp with _ | ⟨o2, restAfter⟩
          · rw [hrec] at h
            simp at h
          · rw [hrec] at h
            simp only [Option.some.injEq, Prod.mk.injEq] at h
            exact ⟨subAfter, restAfter, h.2.symm, hcl⟩
      · rw [if_neg hs] at h
        rcases hrec : preprocess_subgraphs_go cfg
            (fun m p => preprocess_model cfg fuel m p)
            (pyInsert acc (strDrop name 8)
              (if ! (! (preprocess_element_model cfg p0
                    [subgraph_path (strDrop name 8) cp]).nodes.isEmpty ||
                  ! (preprocess_element_model cfg p0
                    [subgraph_path (strDrop name 8) cp]).edges.isEmpty) then
                (preprocess_element_model cfg p0
                  [subgraph_path (strDrop name 8) cp]).setVisible false
              else preprocess_element_model cfg p0
                [subgraph_path (strDrop name 8) cp])) rest cp with _ | ⟨o2, restAfter⟩
        · rw [hrec] at h
          simp at h
        · rw [hrec] at h
          simp only [Option.some.injEq, Prod.mk.injEq] at h
          exact ⟨subAfter, restAfter, h.2.symm, hcl⟩

/-- C6, witness for the amended theorem: a `cluster_`-named subgraph
record has gained `cluster = true` in the after-state, and the
after-state of a one-node model is the node record processed in
place. -/
theorem c6_amended_witness :
    strStartsWith "cluster_c" "cluster_" = true ∧
    (∃ subAfter restAfter,
      ([("cluster_c", Model.mk [] [] [] [] [] [] "" [] none true)] :
          List (String × Model)) = ("cluster_c", subAfter) :: restAfter ∧
        subAfter.cluster = true) ∧
    (Model.mk [("n", [("visible", AVal.b true)])] [] [] [] [] [] "" []
        none false).nodes =
      (preprocess_nodes cfg0 mEx.nodes []).2 :=
  ⟨rfl,
   c6_amended.2.2.2.2 cfg0 1 [] "cluster_c" emptyM [] "" _ _ rfl rfl,
   (c6_amended.2.2.2.1 cfg0 1 mEx "" _ _ rfl).1⟩

/-- C7: the resolved attribute mapping contains only whitelisted keys,
and never the key `rank` (absent from the whitelist). -/
theorem c7_whitelist (ty : String) (styles : List (String × Dict))
    (attributes : Dict) (classes : List String) :
    ((_build_attributes ty styles attributes classes).all
      (fun p => valid_attrs.contains p.1)) = true ∧
    dictLookup (_build_attributes ty styles attributes classes) "rank" = none := by
  constructor
  · unfold _build_attributes
    simp only [List.all_eq_true]
    intro p hp
    exact (List.mem_filter.mp hp).2
  · unfold _build_attributes
    rw [dictLookup_filter]
    have hnr : valid_attrs.contains "rank" = false := by decide
    rw [hnr]
    simp

/-- C8: merging a child context's ranks into a parent concatenates, for
every rank name, the parent's prior list with the child's list (parent
first, never overwritten), and this stays true across a further nested
merge. -/
theorem c8_rank_merge (parent child : Ctx) (r : String)
    (h : (child.ranks.map Prod.fst).Nodup) :
    (dictLookup (add_subgraph_from_context parent child).ranks r).getD [] =
      (dictLookup parent.ranks r).getD [] ++ (dictLookup child.ranks r).getD [] ∧
    (∀ c2 : Ctx, (c2.ranks.map Prod.fst).Nodup →
      (dictLookup (add_subgraph_from_context
          (add_subgraph_from_context parent child) c2).ranks r).getD [] =
        (dictLookup parent.ranks r).getD [] ++
          (dictLookup child.ranks r).getD [] ++
          (dictLookup c2.ranks r).getD []) := by
  constructor
  · exact merge_ranks_lookup child.ranks parent.ranks r h
  · intro c2 h2
    show (dictLookup (merge_ranks (add_subgraph_from_context parent child).ranks
        c2.ranks) r).getD [] = _
    rw [merge_ranks_lookup c2.ranks _ r h2]
    show ((dictLookup (merge_ranks parent.ranks child.ranks) r).getD [] ++ _) = _
    rw [merge_ranks_lookup child.ranks parent.ranks r h]

/-- C8, witness. -/
theorem c8_rank_merge_witness :
    (ctxB.ranks.map Prod.fst).Nodup ∧
    (dictLookup (add_subgraph_from_context ctxA ctxB).ranks "r").getD [] =
      ["a", "b"] :=
  ⟨by decide, (c8_rank_merge ctxA ctxB "r" (by decide)).1⟩

/-- C9: a node named `x` is emitted with id `p_x` under non-empty prefix
`p` and as `x` under the empty prefix, while edge endpoints are passed
to the backend exactly as the edge's `from` / `to` fields, never
prefixed. -/
theorem c9_prefixing (ctx : Ctx) (name : String) (attributes : Dict)
    (classes : List String) :
    (add_node ctx name attributes classes).body =
      ctx.body ++ [Stmt.node
        (if ctx.prefixStr = "" then name else ctx.prefixStr ++ "_" ++ name)
        (_build_attributes "node" ctx.styles attributes classes)] ∧
    (∀ (edge : Dict) (f t : String) (attrs2 : Dict) (cls2 : List String),
      dictLookup edge "from" = some (AVal.s f) →
      dictLookup edge "to" = some (AVal.s t) →
      add_edge ctx edge attrs2 cls2 =
        some { ctx with body := ctx.body ++
          [Stmt.edge f t (_build_attributes "edge" ctx.styles attrs2 cls2)] }) := by
  constructor
  · unfold add_node
    cases hr : dictLookup attributes "rank" with
    | none => simp [hr, node_id]
    | some v => cases v <;> simp [node_id]
  · intro edge f t attrs2 cls2 hf ht
    unfold add_edge
    rw [hf, ht]

/-- C9, witness. -/
theorem c9_prefixing_witness :
    (add_node ctxP "x" [] []).body =
      ctxP.body ++ [Stmt.node "p_x" (_build_attributes "node" ctxP.styles [] [])] ∧
    add_edge ctxP [("from", AVal.s "a"), ("to", AVal.s "b")] [] [] =
      some { ctxP with body := ctxP.body ++
        [Stmt.edge "a" "b" (_build_attributes "edge" ctxP.styles [] [])] } :=
  ⟨(c9_prefixing ctxP "x" [] []).1,
   (c9_prefixing ctxP "x" [] []).2 [("from", AVal.s "a"), ("to", AVal.s "b")]
     "a" "b" [] [] (by decide) (by decide)⟩

/-- C10: when a rank named in the model's `ranks` mapping has no entry
in the accumulator after the node/subgraph/edge phases, `add_rank` fails
(the accumulator lookup yields nothing to join), so `walk_model` returns
no context and no output is produced. -/
theorem c10_missing_rank (fuel : Nat) (ctx : Ctx) (m : Model) (c2 c3 : Ctx)
    (r t : String)
    (h1 : add_subgraphs fuel (add_nodes ctx m.nodes) m.subgraphs = some c2)
    (h2 : add_edges c2 m.edges = some c3)
    (hm : (r, t) ∈ m.ranks)
    (hl : dictLookup c3.ranks r = none) :
    walk_model (fuel + 1) ctx m = none := by
  unfold walk_model
  unfold add_subgraphs at h1
  simp only [h1, h2]
  exact add_ranks_none m.ranks c3 r t hm hl

/-- C10, witness: a model whose `ranks` names `r` while no node joined
`r` makes the walk fail. -/
theorem c10_missing_rank_witness : walk_model 1 ctx0 mR = none :=
  c10_missing_rank 0 ctx0 mR (add_nodes ctx0 mR.nodes) (add_nodes ctx0 mR.nodes)
    "r" "same" rfl rfl (by decide) rfl

end Gv
